import Mathlib

/-!
Verification of the monochrome BMP codec in `src/bitmap.cpp`
(`Bitmap::open`, `Bitmap::save`, `Bitmap::isImage`).

The embedding models the byte stream as `List Nat` (each entry one byte,
little-endian multi-byte fields exactly as the x86 struct writes in the
source produce them).  All definitions are translated from the C++ source;
the definitions whose names start with `claimed` or `spec` are instead
written from the words of the specification, for comparison with the
source-derived ones, and the `Pixel` data type is modelled from the spec
because `bitmap.h` is not part of the sources.
-/

/-- Modelled from the spec: `bitmap.h` is not under `src/`, only `bitmap.cpp`
and `test.cpp` are.  Spec section 3: a `Pixel` is "a boolean high state plus
three 8-bit channels", the channels being meaningful for truecolor and
"derived from a two-entry palette for monochrome".  The channels are kept as
unbounded integers (the truecolor original stores them as C++ `int`), the
boolean (named `on` in the source, renamed `high` here because `on` is
reserved notation) is the monochrome on/off state. -/
structure Pixel where
  red : Int
  green : Int
  blue : Int
  high : Bool
  deriving DecidableEq, Repr

/-- Modelled from the spec: the constructor `Pixel(bool)` used by
`Bitmap::open` lives in the missing `bitmap.h`.  Per spec section 3 the
monochrome channels come from the two-entry palette the encoder writes
(index 0 = black = off, index 1 = white = on). -/
def Pixel.ofBool (high : Bool) : Pixel :=
  { red := if high then 255 else 0
    green := if high then 255 else 0
    blue := if high then 255 else 0
    high := high }

/-- The `PixelMatrix` type of `bitmap.h`: a vector of rows of pixels. -/
abbrev PixelMatrix : Type := List (List Pixel)

/-- Bitmap.isImage, from `src/bitmap.cpp` lines 328-345: the matrix is an
image when it has at least one row, row 0 is nonempty, and every row has the
length of row 0.  (The channel-range validation announced in the function
doc comment of the source, lines 320-327, is absent from the code.) -/
def isImage (pixels : PixelMatrix) : Bool :=
  if pixels.length = 0 ∨ (pixels.headD []).length = 0 then false
  else pixels.all (fun row => row.length == (pixels.headD []).length)

/-- Little-endian serialization of a 16-bit field, as the struct write of the
source emits it on x86. -/
def u16le (n : Nat) : List Nat := [n % 256, n / 256 % 256]

/-- Little-endian serialization of a 32-bit field, as the struct write of the
source emits it on x86. -/
def u32le (n : Nat) : List Nat :=
  [n % 256, n / 256 % 256, n / 65536 % 256, n / 16777216 % 256]

/-- The loop of `Bitmap::save` lines 236-238, with the iteration count as
structural fuel (the loop `for (i = 0; i < width; i += 32) bytes_per_row += 4`
runs at most `width` times, so `width` is enough fuel):
starting from `i`, while `i < w` add 4 and step `i` by 32. -/
def bytesPerRowAux : Nat → Nat → Nat → Nat
  | 0, _, _ => 0
  | fuel + 1, i, w => if i < w then 4 + bytesPerRowAux fuel (i + 32) w else 0

/-- The value `bytes_per_row` computed by `Bitmap::save` lines 236-238. -/
def bytes_per_row (w : Nat) : Nat := bytesPerRowAux w 0 w

/-- The `header.file_size` field written by `Bitmap::save` line 239:
`bmp_offset` (2 + 12 + 40 + 8 = 62) plus `bytes_per_row * pixels.size()`. -/
def file_size (pixels : PixelMatrix) : Nat :=
  62 + bytes_per_row (pixels.headD []).length * pixels.length

/-- The packing loop of `Bitmap::save` lines 276-299, one pixel at a time:
`next_byte += on ? (1 << bit) : 0`; on `bit = 0` the byte is emitted and the
state resets to `bit = 7, next_byte = 0`, otherwise `bit` decrements.
Returns the emitted bytes and the final pending `next_byte`. -/
def packLoop : List Pixel → Nat → Nat → List Nat × Nat
  | [], _, acc => ([], acc)
  | p :: rest, bit, acc =>
    let a := acc + (if p.high then 2 ^ bit else 0)
    if bit = 0 then
      let pr := packLoop rest 7 0
      (a :: pr.1, pr.2)
    else packLoop rest (bit - 1) a

/-- The data bytes `Bitmap::save` emits for one row (lines 276-305): the
bytes put inside the packing loop, plus the flush of the partial trailing
byte when `row_data.size() % 8 != 0`. -/
def rowData (row : List Pixel) : List Nat :=
  if row.length % 8 = 0 then (packLoop row 7 0).1
  else (packLoop row 7 0).1 ++ [(packLoop row 7 0).2]

/-- One full stored row as `Bitmap::save` lines 276-312 emit it: the data
bytes followed by the padding loop
`for (i = 0; i < 4 - bytes_written % 4; i++) file.put(0)`,
where `bytes_written` counts the data bytes. -/
def savedRow (row : List Pixel) : List Nat :=
  rowData row ++ List.replicate (4 - (rowData row).length % 4) 0

/-- The 40 DIB header bytes `Bitmap::save` lines 242-254 write:
header_size 40, width, height, 1 plane, 1 bit per pixel, compression 0,
byte size 0, hres 200, vres 200, 2 colors, 0 important colors. -/
def dibBytes (w h : Nat) : List Nat :=
  u32le 40 ++ u32le w ++ u32le h ++ u16le 1 ++ u16le 1 ++ u32le 0 ++ u32le 0
    ++ u32le 200 ++ u32le 200 ++ u32le 2 ++ u32le 0

/-- The 62 header bytes of a saved file: magic `BM`, the 12-byte
`bmpfile_header` (file_size, two zero reserved fields, bmp_offset 62), the
40-byte DIB header, and the two palette entries black then white
(`Bitmap::save` lines 226-267). -/
def headerBytes (pixels : PixelMatrix) : List Nat :=
  [66, 77] ++ u32le (file_size pixels) ++ u16le 0 ++ u16le 0 ++ u32le 62
    ++ dibBytes (pixels.headD []).length pixels.length
    ++ [0, 0, 0, 0] ++ [255, 255, 255, 0]

/-- The complete byte contents `Bitmap::save` writes for a matrix that passed
`isImage`: headers, then the rows from the last matrix row to the first
(loop at line 272 runs `row` from `pixels.size() - 1` down to 0). -/
def saveBytes (pixels : PixelMatrix) : List Nat :=
  headerBytes pixels ++ (pixels.reverse.map savedRow).flatten

/-- Bitmap.save, from `src/bitmap.cpp` lines 208-317, as a map from the
matrix to the state of the sink file after the call: `none` means the sink
could not be opened and no file exists (the `file.fail()` branch, line 212),
`some c` means the file exists with byte contents `c`.  The `ofstream` is
constructed (creating or truncating the file) at line 210, before the
`isImage` check at line 219, so on an invalid matrix the result is an
existing empty file, `some []`. -/
def save (canOpenSink : Bool) (pixels : PixelMatrix) : Option (List Nat) :=
  if canOpenSink = false then none
  else if isImage pixels = false then some []
  else some (saveBytes pixels)

/-- Read a 32-bit little-endian field of the byte stream at position `pos`,
as the struct reads of `Bitmap::open` obtain it on x86 (bytes past the end
of the stream read as 0). -/
def readU32 (file : List Nat) (pos : Nat) : Nat :=
  file.getD pos 0 + 256 * file.getD (pos + 1) 0 + 65536 * file.getD (pos + 2) 0
    + 16777216 * file.getD (pos + 3) 0

/-- Reinterpret a 32-bit unsigned value as the signed `int32_t` the DIB
header fields `width` and `height` are declared as. -/
def toI32 (n : Nat) : Int :=
  if n < 2147483648 then (n : Int) else (n : Int) - 4294967296

/-- The `traverse_bytes` computation of `Bitmap::open` lines 157-160,
faithful to the C++ operator precedence: the source line
`int traverse_bytes = dib_info.width / 8 + (dib_info.width % 8 != 0)? 1 : 0;`
parses as `(width / 8 + (width % 8 != 0)) ? 1 : 0`, so the whole sum is the
ternary condition and the value is 1 whenever that sum is nonzero.  The next
line then rounds up to a multiple of 4.  C++ `/` and `%` on `int` truncate
toward zero, which is `Int.tdiv` and `Int.tmod`. -/
def traverse_bytes (width : Int) : Int :=
  let t0 : Int :=
    if width.tdiv 8 + (if width.tmod 8 ≠ 0 then (1 : Int) else 0) ≠ 0 then 1 else 0
  t0 + (if t0.tmod 4 = 0 then 0 else 4 - t0.tmod 4)

/-- The unpacking of one row buffer in `Bitmap::open` lines 164-188: first
every bit of the bytes at positions `col < width / 8`, most significant bit
first, then the leading `width % 8` bits of the byte at position `width / 8`.
Reads beyond the row buffer (which the source makes possible, since the
buffer only holds `traverse_bytes` bytes) are modelled as 0. -/
def unpackRow (rowbuf : List Nat) (width : Int) : List Pixel :=
  ((List.range (width.tdiv 8).toNat).map (fun col =>
      (List.range 8).map (fun k =>
        Pixel.ofBool (Nat.testBit (rowbuf.getD col 0) (7 - k))))).flatten
    ++ (List.range (width.tmod 8).toNat).map (fun rb =>
        Pixel.ofBool (Nat.testBit (rowbuf.getD (width.tdiv 8).toNat 0) (7 - rb)))

/-- Bitmap.open, from `src/bitmap.cpp` lines 75-196, on a readable file with
byte contents `file`, starting from pixel state `pixels0`.  If the first two
bytes are not `B`,`M` the pixel state is left untouched (the source only
prints a message).  Otherwise the matrix is cleared and rebuilt: the header
fields are read (file_size at 2, bmp_offset at 10, width at 18, height at
22), a negative height is negated (the `flip` flag recording the orientation
is computed at lines 115-120 but never used afterwards), the stream is
positioned at `bmp_offset`, and `height` rows of `traverse_bytes` bytes each
are read and unpacked, each row appended at the back (`push_back`,
line 190). -/
def openBmp (file : List Nat) (pixels0 : PixelMatrix) : PixelMatrix :=
  if file.getD 0 0 = 66 ∧ file.getD 1 0 = 77 then
    let bmp_offset := readU32 file 10
    let width := toI32 (readU32 file 18)
    let height0 := toI32 (readU32 file 22)
    let height := if height0 < 0 then -height0 else height0
    let tb := (traverse_bytes width).toNat
    (List.range height.toNat).map (fun r =>
      unpackRow ((file.drop (bmp_offset + r * tb)).take tb) width)
  else pixels0

/-- Claimed per-row byte count, written from the words of claim C3 and spec
section 4.1 step 8: ceil(width/8), rounded up to the next multiple of 4. -/
def claimedTraverse (w : Nat) : Nat :=
  (w + 7) / 8 + (4 - (w + 7) / 8 % 4) % 4

/-- Value of bit `j` (most significant bit first) of the byte packed from the
pixel chunk `ps`: pixel 0 lands in bit 7, pixel 7 in bit 0, missing pixels
contribute 0. -/
def bitVal (ps : List Pixel) (j : Nat) : Nat :=
  if (ps.getD j (Pixel.ofBool false)).high then 2 ^ (7 - j) else 0

/-- Spec-language packed byte: the eight pixels of a chunk enter most
significant bit first. -/
def specByte (ps : List Pixel) : Nat :=
  bitVal ps 0 + bitVal ps 1 + bitVal ps 2 + bitVal ps 3 + bitVal ps 4 +
    bitVal ps 5 + bitVal ps 6 + bitVal ps 7

/-- Spec-language row packing, from the words of spec section 4.2 step 7:
8 pixels per byte, most significant bit first, the partial trailing chunk
flushed as a byte whose unused low bits are 0. -/
def specPackRow (row : List Pixel) : List Nat :=
  if h : row.length = 0 then []
  else specByte (row.take 8) :: specPackRow (row.drop 8)
termination_by row.length
decreasing_by simp; omega

/-- Unfolding eight steps of the packing loop emits exactly the
spec-language byte of the first eight pixels. -/
theorem packLoop_eight (p0 p1 p2 p3 p4 p5 p6 p7 : Pixel) (rest : List Pixel) :
    packLoop (p0::p1::p2::p3::p4::p5::p6::p7::rest) 7 0 =
      (specByte [p0,p1,p2,p3,p4,p5,p6,p7] :: (packLoop rest 7 0).1,
        (packLoop rest 7 0).2) := by
  simp [packLoop, specByte, bitVal]

/-- The data bytes of a row that starts with a full chunk of eight pixels
are the packed byte of that chunk followed by the data bytes of the rest. -/
theorem rowData_cons8 (p0 p1 p2 p3 p4 p5 p6 p7 : Pixel) (rest : List Pixel) :
    rowData (p0::p1::p2::p3::p4::p5::p6::p7::rest) =
      specByte [p0,p1,p2,p3,p4,p5,p6,p7] :: rowData rest := by
  unfold rowData
  rw [packLoop_eight]
  have hlen : (p0::p1::p2::p3::p4::p5::p6::p7::rest).length % 8 =
      rest.length % 8 := by
    simp [List.length_cons]
    omega
  rw [hlen]
  by_cases h : rest.length % 8 = 0 <;> simp [h]

/-- Bounded-length version of `rowData_eq_specPackRow`, for induction. -/
theorem rowData_eq_aux : ∀ (n : Nat) (row : List Pixel), row.length ≤ n →
    rowData row = specPackRow row := by
  intro n
  induction n with
  | zero =>
    intro row h
    rcases row with _ | ⟨p0, rest⟩
    · simp [rowData, packLoop, specPackRow]
    · simp at h
  | succ n ih =>
    intro row h
    rcases row with _ | ⟨p0, _ | ⟨p1, _ | ⟨p2, _ | ⟨p3, _ | ⟨p4, _ |
      ⟨p5, _ | ⟨p6, _ | ⟨p7, rest⟩⟩⟩⟩⟩⟩⟩⟩
    · simp [rowData, packLoop, specPackRow]
    · simp [rowData, packLoop, specPackRow, specByte, bitVal, Pixel.ofBool]
    · simp [rowData, packLoop, specPackRow, specByte, bitVal, Pixel.ofBool]
    · simp [rowData, packLoop, specPackRow, specByte, bitVal, Pixel.ofBool]
    · simp [rowData, packLoop, specPackRow, specByte, bitVal, Pixel.ofBool]
    · simp [rowData, packLoop, specPackRow, specByte, bitVal, Pixel.ofBool]
    · simp [rowData, packLoop, specPackRow, specByte, bitVal, Pixel.ofBool]
    · simp [rowData, packLoop, specPackRow, specByte, bitVal, Pixel.ofBool]
    · rw [rowData_cons8]
      rw [specPackRow]
      have hne : ¬ ((p0::p1::p2::p3::p4::p5::p6::p7::rest).length = 0) := by
        simp
      rw [dif_neg hne]
      simp only [List.take_succ_cons, List.take_zero, List.drop_succ_cons,
        List.drop_zero]
      have := ih rest (by simp at h; omega)
      rw [this]

/-- The imperative packing of `Bitmap::save` equals the spec-language
packing: 8 pixels per byte, most significant bit first, the partial
trailing byte flushed exactly when the row length is not a multiple of 8. -/
theorem rowData_eq_specPackRow (row : List Pixel) :
    rowData row = specPackRow row :=
  rowData_eq_aux row.length row (Nat.le_refl _)

/-- Bounded-length version of the `specPackRow` length formula. -/
theorem specPackRow_length_aux : ∀ (n : Nat) (row : List Pixel),
    row.length ≤ n → (specPackRow row).length = (row.length + 7) / 8 := by
  intro n
  induction n with
  | zero =>
    intro row h
    have h0 : row.length = 0 := by omega
    rw [specPackRow, dif_pos h0, h0]
    rfl
  | succ n ih =>
    intro row h
    by_cases h0 : row.length = 0
    · rw [specPackRow, dif_pos h0, h0]
      rfl
    · rw [specPackRow, dif_neg h0]
      have hd : (row.drop 8).length = row.length - 8 := by simp
      rw [List.length_cons, ih (row.drop 8) (by rw [hd]; omega), hd]
      omega

/-- A row of n pixels yields ceil(n/8) data bytes. -/
theorem rowData_length (row : List Pixel) :
    (rowData row).length = (row.length + 7) / 8 := by
  rw [rowData_eq_specPackRow,
    specPackRow_length_aux row.length row (Nat.le_refl _)]

/-- Stored length of one emitted row: the data bytes plus the padding the
source emits, which is `4 - data % 4` bytes (so 4 bytes, not 0, when the
data length is already a multiple of 4). -/
theorem savedRow_length (row : List Pixel) :
    (savedRow row).length =
      (row.length + 7) / 8 + (4 - (row.length + 7) / 8 % 4) := by
  simp [savedRow, rowData_length]

/-- Total length of the emitted pixel-data section for rows of equal
length. -/
theorem rowsFlatten_length : ∀ (l : List (List Pixel)) (w : Nat),
    (∀ r ∈ l, r.length = w) →
    ((l.map savedRow).flatten).length =
      l.length * ((w + 7) / 8 + (4 - (w + 7) / 8 % 4)) := by
  intro l w h
  induction l with
  | nil => simp
  | cons r rest ih =>
    simp only [List.map_cons, List.flatten_cons, List.length_append,
      List.length_cons]
    rw [savedRow_length, ih (fun x hx => h x (List.mem_cons_of_mem r hx)),
      h r (List.mem_cons_self r rest)]
    ring

/-- Closed form of the fuelled `bytes_per_row` loop. -/
theorem bytesPerRowAux_eq : ∀ (fuel i w : Nat), w ≤ i + fuel →
    bytesPerRowAux fuel i w = 4 * ((w - i + 31) / 32) := by
  intro fuel
  induction fuel with
  | zero =>
    intro i w h
    have h0 : w - i = 0 := by omega
    simp [bytesPerRowAux, h0]
  | succ n ih =>
    intro i w h
    rw [bytesPerRowAux]
    by_cases hlt : i < w
    · rw [if_pos hlt, ih (i + 32) w (by omega)]
      omega
    · rw [if_neg hlt]
      have h0 : w - i = 0 := by omega
      simp [h0]

/-- The loop of `Bitmap::save` lines 236-238 computes 4 times the ceiling of
width/32. -/
theorem bytes_per_row_eq (w : Nat) : bytes_per_row w = 4 * ((w + 31) / 32) := by
  rw [bytes_per_row, bytesPerRowAux_eq w 0 w (by omega)]
  simp

/-- The header section of a saved file is 62 bytes long. -/
theorem headerBytes_length (g : PixelMatrix) : (headerBytes g).length = 62 := by
  simp [headerBytes, dibBytes, u32le, u16le]

/-- What passing `isImage` means: a positive number of rows, a positive
width, and all rows of that width. -/
theorem isImage_spec (g : PixelMatrix) (h : isImage g = true) :
    0 < g.length ∧ 0 < (g.headD []).length ∧
      ∀ r ∈ g, r.length = (g.headD []).length := by
  unfold isImage at h
  by_cases h0 : g.length = 0 ∨ (g.headD []).length = 0
  · rw [if_pos h0] at h
    exact absurd h (by simp)
  · rw [if_neg h0] at h
    push_neg at h0
    refine ⟨Nat.pos_of_ne_zero h0.1, Nat.pos_of_ne_zero h0.2, ?_⟩
    intro r hr
    have := List.all_eq_true.mp h r hr
    simpa using this

/-- Total length of the file `Bitmap::save` produces for a valid matrix. -/
theorem saveBytes_length (g : PixelMatrix) (h : isImage g = true) :
    (saveBytes g).length =
      62 + g.length * (((g.headD []).length + 7) / 8 +
        (4 - ((g.headD []).length + 7) / 8 % 4)) := by
  obtain ⟨hh, hw, hrows⟩ := isImage_spec g h
  rw [saveBytes, List.length_append, headerBytes_length,
    rowsFlatten_length g.reverse (g.headD []).length
      (fun r hr => hrows r (List.mem_reverse.mp hr)),
    List.length_reverse]

/-- Claim C1 (code_bug evaluation): the round-trip property fails.  The
valid monochrome matrix `[[on], [off]]` is accepted by `save`, yet opening
the saved bytes yields `[[off], [on]]`: `Bitmap::open` computes its `flip`
orientation flag but never uses it and appends every decoded row at the
back, so a bottom-first file comes back vertically flipped; the on/off value
at (0, 0) differs from the original. -/
theorem c1_roundtrip_bug :
    isImage [[Pixel.ofBool true], [Pixel.ofBool false]] = true ∧
      save true [[Pixel.ofBool true], [Pixel.ofBool false]] =
        some (saveBytes [[Pixel.ofBool true], [Pixel.ofBool false]]) ∧
      openBmp (saveBytes [[Pixel.ofBool true], [Pixel.ofBool false]]) [] =
        [[Pixel.ofBool false], [Pixel.ofBool true]] ∧
      openBmp (saveBytes [[Pixel.ofBool true], [Pixel.ofBool false]]) [] ≠
        [[Pixel.ofBool true], [Pixel.ofBool false]] := by
  decide

/-- Claim C2 (code_bug evaluation): decoded rows are never inserted at the
front: the `flip` flag of `Bitmap::open` is dead code and every row is
appended with `push_back`, so decoding the bottom-first file saved from
`[[A], [B]]` (A = off, B = on) yields `[[B], [A]]` instead of `[[A], [B]]`. -/
theorem c2_orientation_bug :
    openBmp (saveBytes [[Pixel.ofBool false], [Pixel.ofBool true]]) [] =
        [[Pixel.ofBool true], [Pixel.ofBool false]] ∧
      openBmp (saveBytes [[Pixel.ofBool false], [Pixel.ofBool true]]) [] ≠
        [[Pixel.ofBool false], [Pixel.ofBool true]] := by
  decide

/-- Claim C3 (code_bug evaluation): because the ternary in `Bitmap::open`
line 158 takes the whole sum as its condition, `traverse_bytes` is 4 for
every positive width, while the claimed value, ceil(w/8) rounded up to a
multiple of 4, is 8 at width 33 and 28 at width 200 (the two agree at width
10 by coincidence). -/
theorem c3_traverse_bytes_bug :
    traverse_bytes 33 = 4 ∧ claimedTraverse 33 = 8 ∧
      traverse_bytes 200 = 4 ∧ claimedTraverse 200 = 28 ∧
      traverse_bytes 10 = 4 ∧ claimedTraverse 10 = 4 := by
  decide

/-- Claim C4 (code_bug evaluation): `Bitmap::isImage` accepts a matrix whose
pixel has a red channel of 300, outside [0, 255], although both the claim
and the doc comment of the function (source lines 320-327) require such a
matrix to be rejected: the channel-range check is missing from the code. -/
theorem c4_isImage_bug :
    isImage [[{ red := 300, green := 0, blue := 0, high := false }]] = true ∧
      ¬ ((300 : Int) ≤ 255) := by
  decide

/-- Claim C5 (counterexample): for the valid one-row matrix of width 32 the
file_size field holds 62 + 4 = 66, but the produced file has 70 bytes,
because the padding loop of `Bitmap::save` emits 4 padding bytes (not 0)
when the 4 data bytes are already a multiple of 4. -/
theorem c5_counterexample :
    isImage [List.replicate 32 (Pixel.ofBool true)] = true ∧
      file_size [List.replicate 32 (Pixel.ofBool true)] = 66 ∧
      (saveBytes [List.replicate 32 (Pixel.ofBool true)]).length = 70 := by
  decide

/-- Claim C5 (amended): for every matrix accepted by `save`, the file_size
field equals bmp_offset 62 plus ceil(ceil(width/8)/4)*4 times the height;
the total number of bytes of the produced file equals that field exactly
when ceil(width/8) is not a multiple of 4, and exceeds it by 4 bytes per row
(the padding loop emits 4 zero bytes instead of 0) when ceil(width/8) is a
multiple of 4. -/
theorem c5_file_size_amended (g : PixelMatrix) (h : isImage g = true) :
    file_size g =
        62 + 4 * ((((g.headD []).length + 7) / 8 + 3) / 4) * g.length
      ∧ (((g.headD []).length + 7) / 8 % 4 ≠ 0 →
          (saveBytes g).length = file_size g)
      ∧ (((g.headD []).length + 7) / 8 % 4 = 0 →
          (saveBytes g).length = file_size g + 4 * g.length) := by
  rw [saveBytes_length g h, file_size, bytes_per_row_eq]
  refine ⟨?_, ?_, ?_⟩
  · have harith : 4 * (((g.headD []).length + 31) / 32) =
        4 * ((((g.headD []).length + 7) / 8 + 3) / 4) := by omega
    rw [harith]
  · intro hpad
    have harith : ((g.headD []).length + 7) / 8 +
        (4 - ((g.headD []).length + 7) / 8 % 4) =
        4 * (((g.headD []).length + 31) / 32) := by omega
    rw [harith, Nat.mul_comm]
  · intro hpad
    have hc : 4 * (((g.headD []).length + 31) / 32) =
        ((g.headD []).length + 7) / 8 := by omega
    have hp : 4 - ((g.headD []).length + 7) / 8 % 4 = 4 := by omega
    rw [hc, hp]
    ring

/-- Claim C5 witness: the amended statement at the concrete 1x1 matrix of
one off pixel, whose saved file is 66 bytes long. -/
theorem c5_witness :
    isImage [[Pixel.ofBool false]] = true ∧
      (file_size [[Pixel.ofBool false]] =
          62 + 4 * ((((([[Pixel.ofBool false]] : PixelMatrix).headD []).length + 7) / 8 + 3) / 4) *
            ([[Pixel.ofBool false]] : PixelMatrix).length
        ∧ (((([[Pixel.ofBool false]] : PixelMatrix).headD []).length + 7) / 8 % 4 ≠ 0 →
            (saveBytes [[Pixel.ofBool false]]).length = file_size [[Pixel.ofBool false]])
        ∧ (((([[Pixel.ofBool false]] : PixelMatrix).headD []).length + 7) / 8 % 4 = 0 →
            (saveBytes [[Pixel.ofBool false]]).length =
              file_size [[Pixel.ofBool false]] +
                4 * ([[Pixel.ofBool false]] : PixelMatrix).length)) :=
  ⟨by decide, c5_file_size_amended [[Pixel.ofBool false]] (by decide)⟩

/-- Claim C6 (counterexample): a row of 32 pixels packs into 4 data bytes,
already a multiple of 4, yet the emitted row is 8 bytes long, while the
claim predicts ceil(32/8) + (4 - ceil(32/8) mod 4) mod 4 = 4 bytes with zero
padding bytes. -/
theorem c6_counterexample :
    (savedRow (List.replicate 32 (Pixel.ofBool false))).length = 8 ∧
      (32 + 7) / 8 + (4 - (32 + 7) / 8 % 4) % 4 = 4 := by
  decide

/-- Claim C6 (amended): every emitted row is ceil(width/8) pixel-data bytes
followed by exactly `4 - (ceil(width/8) mod 4)` zero bytes — between 1 and 4
padding bytes, 4 of them (not 0) when ceil(width/8) is already a multiple of
4 — and the stored row length is always a multiple of 4. -/
theorem c6_row_padding_amended (row : List Pixel) :
    savedRow row = rowData row ++
        List.replicate (4 - ((row.length + 7) / 8) % 4) 0
      ∧ (rowData row).length = (row.length + 7) / 8
      ∧ (savedRow row).length % 4 = 0
      ∧ 1 ≤ 4 - ((row.length + 7) / 8) % 4 := by
  refine ⟨?_, rowData_length row, ?_, by omega⟩
  · rw [savedRow, rowData_length]
  · rw [savedRow_length]
    omega

/-- Claim C7: when the first two bytes of the file are not `B`,`M`,
`Bitmap::open` leaves the pixel state exactly as it was before the call and
produces no grid. -/
theorem c7_bad_magic_preserves_state (file : List Nat) (p : PixelMatrix)
    (h : ¬ (file.getD 0 0 = 66 ∧ file.getD 1 0 = 77)) :
    openBmp file p = p := by
  simp only [openBmp]
  rw [if_neg h]

/-- Claim C7 witness: opening the concrete non-BMP byte stream `[0, 1, 2]`
from the state holding one on pixel leaves that state unchanged. -/
theorem c7_witness :
    (¬ (([0, 1, 2] : List Nat).getD 0 0 = 66 ∧
        ([0, 1, 2] : List Nat).getD 1 0 = 77)) ∧
      openBmp [0, 1, 2] [[Pixel.ofBool true]] = [[Pixel.ofBool true]] :=
  ⟨by decide,
    c7_bad_magic_preserves_state [0, 1, 2] [[Pixel.ofBool true]] (by decide)⟩

/-- Claim C8 (counterexample): saving the invalid empty matrix to an
openable sink leaves an existing empty file (`some []`), not an untouched
file system (`none`): the `ofstream` is opened, creating or truncating the
file, before the `isImage` check runs. -/
theorem c8_counterexample :
    isImage ([] : PixelMatrix) = false ∧ save true [] = some [] ∧
      save true [] ≠ none := by
  decide

/-- Claim C8 (amended): for every matrix failing `isImage` validation,
`save` writes no bytes — the sink file is left empty — though the file
itself is created or truncated by opening the stream before validation. -/
theorem c8_invalid_grid_amended (g : PixelMatrix) (h : isImage g = false) :
    save true g = some [] := by
  simp [save, h]

/-- Claim C8 witness: the amended statement at the concrete invalid matrix
with one empty row. -/
theorem c8_witness :
    isImage ([[]] : PixelMatrix) = false ∧ save true [[]] = some [] :=
  ⟨by decide, c8_invalid_grid_amended [[]] (by decide)⟩

/-- Claim C9: for every matrix accepted by `save`, the pixel-data section
(after the 62 header bytes) is the rows from the last matrix row to the
first, each packed 8 pixels per byte most significant bit first from the
boolean on state and padded with zeros; the data-byte count of a row gains
the flushed partial byte exactly when the width is not a multiple of 8; and
the DIB height field, the 4 bytes at offset 22, holds the positive row
count. -/
theorem c9_save_row_emission (g : PixelMatrix) (h : isImage g = true) :
    (saveBytes g).drop 62 =
        (g.reverse.map (fun r =>
          specPackRow r ++
            List.replicate (4 - (specPackRow r).length % 4) 0)).flatten
      ∧ (∀ r ∈ g, (rowData r).length =
          r.length / 8 + (if r.length % 8 = 0 then 0 else 1))
      ∧ 0 < g.length
      ∧ (∃ pre post, saveBytes g = pre ++ u32le g.length ++ post ∧
          pre.length = 22) := by
  obtain ⟨hh, hw, hrows⟩ := isImage_spec g h
  refine ⟨?_, ?_, hh, ?_⟩
  · have hdrop : (saveBytes g).drop 62 = (g.reverse.map savedRow).flatten := by
      rw [saveBytes, ← headerBytes_length g, List.drop_left]
    rw [hdrop]
    have hfun : savedRow = fun r =>
        specPackRow r ++ List.replicate (4 - (specPackRow r).length % 4) 0 := by
      funext r
      rw [savedRow, rowData_eq_specPackRow]
    rw [hfun]
  · intro r _
    rw [rowData_length]
    by_cases h8 : r.length % 8 = 0 <;> simp [h8] <;> omega
  · refine ⟨[66, 77] ++ u32le (file_size g) ++ u16le 0 ++ u16le 0 ++ u32le 62
        ++ u32le 40 ++ u32le (g.headD []).length,
      u16le 1 ++ u16le 1 ++ u32le 0 ++ u32le 0 ++ u32le 200 ++ u32le 200
        ++ u32le 2 ++ u32le 0 ++ [0, 0, 0, 0] ++ [255, 255, 255, 0]
        ++ (g.reverse.map savedRow).flatten, ?_, ?_⟩
    · simp [saveBytes, headerBytes, dibBytes, List.append_assoc]
    · simp [u32le, u16le]

/-- Claim C9 witness: the row-emission statement at the concrete 1x1 matrix
of one on pixel. -/
theorem c9_witness :
    isImage [[Pixel.ofBool true]] = true ∧
      ((saveBytes [[Pixel.ofBool true]]).drop 62 =
          (([[Pixel.ofBool true]] : PixelMatrix).reverse.map (fun r =>
            specPackRow r ++
              List.replicate (4 - (specPackRow r).length % 4) 0)).flatten
        ∧ (∀ r ∈ ([[Pixel.ofBool true]] : PixelMatrix), (rowData r).length =
            r.length / 8 + (if r.length % 8 = 0 then 0 else 1))
        ∧ 0 < ([[Pixel.ofBool true]] : PixelMatrix).length
        ∧ (∃ pre post, saveBytes [[Pixel.ofBool true]] =
            pre ++ u32le ([[Pixel.ofBool true]] : PixelMatrix).length ++ post ∧
            pre.length = 22)) :=
  ⟨by decide, c9_save_row_emission [[Pixel.ofBool true]] (by decide)⟩

/-- Claim C10 (code_bug evaluation): at width 33 the trailing-bit loop of
`Bitmap::open` reads the row buffer at position width/8 = 4 (that loop runs
because 33 mod 8 is nonzero), but `traverse_bytes`, the size of the
allocated buffer, is 4, so the access index is not below the buffer size:
the read is out of bounds. -/
theorem c10_out_of_bounds_bug :
    (33 : Int).tmod 8 ≠ 0 ∧ (33 : Int).tdiv 8 = 4 ∧ traverse_bytes 33 = 4 ∧
      ¬ ((33 : Int).tdiv 8 < traverse_bytes 33) := by
  decide
